import Mathlib

/-!
Verification of the lyric-video timeline, layout and render engine.

The Python sources are shallowly embedded: float timestamps and animation
progress values become rational numbers, Python float infinity becomes the
none case of an Option, pixel coordinates and sizes become integers, and
Python dictionaries keyed by element id become association lists with
overwrite-on-insert semantics.  Each definition names the source function
it embeds.
-/

/-- Lyric data as stored in LyricTimeline.lyrics_data: a list of
(timestamp, text) pairs (src/lyric_timeline.py:167-185). -/
abbrev LyricsData := List (ℚ × String)

/-- Embeds LyricTimeline._calculate_lyric_duration
(src/lyric_timeline.py:368-392).  The Python function represents the
unbounded case by float infinity, both for the max_duration argument and
for the returned duration; here none stands for infinity. -/
def calculate_lyric_duration (lyrics_data : LyricsData) (lyric_index : ℕ)
    (max_duration : Option ℚ) : Option ℚ :=
  match lyrics_data[lyric_index]? with
  | none => some 3
  | some (current_time, _) =>
    match lyrics_data[lyric_index + 1]? with
    | some (next_time, _) => some (next_time - current_time)
    | none =>
      match max_duration with
      | some m => some (max 3 (m - current_time))
      | none => none

/-- Embeds LyricContentFactory.calculate_lyric_duration
(src/lyric_content.py:134-158).  This variant takes no duration bound and
returns the 3 second default for the last entry. -/
def factory_calculate_lyric_duration (lyrics_data : LyricsData)
    (lyric_index : ℕ) : ℚ :=
  match lyrics_data[lyric_index]? with
  | none => 3
  | some (current_time, _) =>
    match lyrics_data[lyric_index + 1]? with
    | some (next_time, _) => next_time - current_time
    | none => 3

/-- Embeds LyricTimeline._calculate_animation_progress
(src/lyric_timeline.py:330-366).  The duration may be infinite (none); in
that case the fade-out guard and the fully-visible comparison, which in
Python compare against float infinity, are always passed. -/
def calculate_animation_progress (t start_time : ℚ) (duration : Option ℚ)
    (animation_duration : ℚ) : ℚ :=
  let fade_in_start := start_time - animation_duration
  match duration with
  | none =>
    if t < fade_in_start then 0
    else if t < start_time then
      max 0 (min 1 ((t - fade_in_start) / animation_duration))
    else 1
  | some d =>
    if t < fade_in_start ∨ t ≥ start_time + d then 0
    else if t < start_time then
      max 0 (min 1 ((t - fade_in_start) / animation_duration))
    else
      let relative_time := t - start_time
      if relative_time ≤ d - animation_duration then 1
      else
        let fade_out_start := d - animation_duration
        if relative_time ≥ fade_out_start then
          max 0 (1 - (relative_time - fade_out_start) / animation_duration)
        else 1

/-- The fade-out half of the visibility test fade_in_start <= t <
fade_out_end of LyricTimeline.get_content_at_time
(src/lyric_timeline.py:304-309); with an infinite duration the comparison
t < infinity always holds. -/
def fade_out_ok (t start_time : ℚ) (duration : Option ℚ) : Bool :=
  match duration with
  | some d => decide (t < start_time + d)
  | none => true

/-- One element of the list returned by get_content_at_time
(src/lyric_timeline.py:316-324).  The constant metadata fields language
and style of the Python dictionary are omitted. -/
structure ActiveLyric where
  text : String
  start_time : ℚ
  duration : Option ℚ
  animation_progress : ℚ
  index : ℕ
deriving DecidableEq

/-- The body of the loop of LyricTimeline.get_content_at_time
(src/lyric_timeline.py:301-324) for one enumerated entry: the entry is
kept when the query time lies in the extended visibility window and the
animation progress is nonnegative. -/
def lyric_at (lyrics_data : LyricsData) (t : ℚ) (max_duration : Option ℚ)
    (animation_duration : ℚ) (p : ℕ × ℚ × String) : Option ActiveLyric :=
  let i := p.1
  let start_time := p.2.1
  let text := p.2.2
  let duration := calculate_lyric_duration lyrics_data i max_duration
  if decide (start_time - animation_duration ≤ t) && fade_out_ok t start_time duration then
    let animation_progress :=
      calculate_animation_progress t start_time duration animation_duration
    if 0 ≤ animation_progress then
      some ⟨text, start_time, duration, animation_progress, i⟩
    else none
  else none

/-- Embeds LyricTimeline.get_content_at_time (src/lyric_timeline.py:282-328):
enumerate the entries, keep the visible ones, and sort the result by
start time (a stable sort, as in Python). -/
def get_content_at_time (lyrics_data : LyricsData) (t : ℚ)
    (max_duration : Option ℚ) (animation_duration : ℚ) : List ActiveLyric :=
  List.insertionSort (fun a b => a.start_time ≤ b.start_time)
    (lyrics_data.enum.filterMap (lyric_at lyrics_data t max_duration animation_duration))

/-- Splitting a character list at newline characters: the semantics of
Python text.split with a newline separator (src/lyric_timeline.py:219).
The accumulator holds the current chunk in reverse. -/
def split_newline : List Char → List Char → List (List Char)
  | [], acc => [acc.reverse]
  | c :: rest, acc =>
    if c = '\n' then acc.reverse :: split_newline rest []
    else split_newline rest (c :: acc)

/-- Stripping leading and trailing whitespace characters: the semantics of
Python str.strip (src/lyric_timeline.py:220). -/
def strip_chars (l : List Char) : List Char :=
  ((l.dropWhile Char.isWhitespace).reverse.dropWhile Char.isWhitespace).reverse

/-- The line cleaning step of LyricTimeline._preprocess_lyrics
(src/lyric_timeline.py:219-220): split the text on newlines, strip each
line, drop blank lines.  Strings are processed as character lists so that
the definition evaluates by kernel reduction. -/
def clean_lines (text : String) : List String :=
  (split_newline text.toList []).filterMap (fun line =>
    let stripped := strip_chars line
    if stripped = [] then none else some (String.mk stripped))

/-- Embeds LyricTimeline._preprocess_lyrics (src/lyric_timeline.py:206-223):
entries whose cleaned line list is empty are dropped. -/
def preprocess_lyrics (lyrics_data : LyricsData) : List (ℚ × List String) :=
  lyrics_data.filterMap (fun p =>
    let cleaned_lines := clean_lines p.2
    if cleaned_lines = [] then none else some (p.1, cleaned_lines))

/-- Embeds LyricTimeline._calculate_max_lines (src/lyric_timeline.py:225-230),
a fold over the preprocessed lyrics starting from 1. -/
def calculate_max_lines (processed_lyrics : List (ℚ × List String)) : ℕ :=
  processed_lyrics.foldl (fun m p => max m p.2.length) 1

/-- Embeds LyricTimeline.get_processed_lyrics (src/lyric_timeline.py:591-603);
the default max_duration is float infinity, modelled by none. -/
def get_processed_lyrics (lyrics_data : LyricsData) (max_duration : Option ℚ) :
    List (ℚ × List String) :=
  (preprocess_lyrics lyrics_data).filter (fun p =>
    match max_duration with
    | some m => decide (p.1 < m)
    | none => true)

/-- Embeds the dataclass LyricRect (src/layout_types.py:16-30).  The Python
constructor additionally validates width > 0 and height > 0; theorems take
that validity as a hypothesis where it matters. -/
structure LyricRect where
  x : ℤ
  y : ℤ
  width : ℤ
  height : ℤ
deriving DecidableEq

/-- Embeds LyricRect.overlaps_with (src/layout_types.py:37-42), a
closed-boundary separating-axis test. -/
def LyricRect.overlaps_with (self other : LyricRect) : Bool :=
  !(decide (self.x + self.width < other.x) ||
    decide (other.x + other.width < self.x) ||
    decide (self.y + self.height < other.y) ||
    decide (other.y + other.height < self.y))

/-- The LayoutElement interface (src/layout_engine.py:26-58) as consumed by
the layout engine: a stable id, a priority, and the required-rect query
as a function of the canvas size. -/
structure LayoutElement where
  element_id : String
  priority : ℤ
  calc_rect : ℤ → ℤ → LyricRect

/-- A Python dict from element id to rect, as an insertion-ordered
association list. -/
abbrev RectDict := List (String × LyricRect)

/-- Python dict assignment d[k] = v: overwrite in place when the key is
present, append otherwise. -/
def dictInsert (m : RectDict) (k : String) (v : LyricRect) : RectDict :=
  if m.any (fun p => p.1 == k) then m.map (fun p => if p.1 == k then (k, v) else p)
  else m ++ [(k, v)]

/-- Python dict lookup d[k] (none models a KeyError, which cannot occur in
the embedded code paths). -/
def dictGet? (m : RectDict) (k : String) : Option LyricRect :=
  (m.find? (fun p => p.1 == k)).map Prod.snd

/-- Python d.values() in insertion order. -/
def dictValues (m : RectDict) : List LyricRect := m.map Prod.snd

/-- Embeds VerticalStackStrategy.arrange_elements
(src/layout_engine.py:106-144): sort by ascending priority (a stable sort,
as in Python), compute every required rect, total the heights plus
spacing, start at the configured y or at the vertically centered position
(Python floor division), then reassign the y of each rect in order.  The
returned association list is the element_positions dict of the
LayoutResult. -/
def arrange_elements (spacing : ℤ) (start_y : Option ℤ)
    (elements : List LayoutElement) (video_width video_height : ℤ) : RectDict :=
  if elements.isEmpty then []
  else
    let sorted_elements := List.insertionSort (fun a b => a.priority ≤ b.priority) elements
    let element_rects := sorted_elements.foldl
      (fun m e => dictInsert m e.element_id (e.calc_rect video_width video_height)) []
    let total_height := ((dictValues element_rects).map LyricRect.height).sum
      + spacing * ((elements.length : ℤ) - 1)
    let first_y := match start_y with
      | some yv => yv
      | none => Int.fdiv (video_height - total_height) 2
    (sorted_elements.foldl
      (fun (acc : RectDict × ℤ) e =>
        match dictGet? element_rects e.element_id with
        | some rect =>
          (dictInsert acc.1 e.element_id ⟨rect.x, acc.2, rect.width, rect.height⟩,
            acc.2 + rect.height + spacing)
        | none => acc)
      ([], first_y)).1

/-- The nested pair loop of LayoutEngine.detect_conflicts
(src/layout_engine.py:192-202): every ordered pair i < j of dict entries
whose rects overlap.  The Python code formats a Chinese message naming the
two ids; here the pair of ids is returned instead. -/
def conflict_pairs : RectDict → List (String × String)
  | [] => []
  | (id1, rect1) :: rest =>
    (rest.filterMap (fun q =>
      if rect1.overlaps_with q.2 then some (id1, q.1) else none))
      ++ conflict_pairs rest

/-- Embeds LayoutEngine.detect_conflicts (src/layout_engine.py:175-202),
computed on the unlaid-out required rects. -/
def detect_conflicts (elements : List LayoutElement)
    (video_width video_height : ℤ) : List (String × String) :=
  if elements.length < 2 then []
  else
    let element_rects := elements.foldl
      (fun m e => dictInsert m e.element_id (e.calc_rect video_width video_height)) []
    conflict_pairs element_rects

/-- The constant ANIMATION_VERTICAL_OFFSET (src/lyric_timeline.py:31). -/
def ANIMATION_VERTICAL_OFFSET : ℤ := 30

/-- Truncation toward zero: the behavior of Python int() applied to a
float. -/
def ratTrunc (q : ℚ) : ℤ := if 0 ≤ q then ⌊q⌋ else -⌊-q⌋

/-- The vertical animation offset computed in
LyricTimeline._get_render_position (src/lyric_timeline.py:523-530):
int(ANIMATION_VERTICAL_OFFSET * (1.0 - animation_progress)) during the
animation phase, 0 once fully visible. -/
def vertical_offset_of (animation_progress : ℚ) : ℤ :=
  if animation_progress < 1 then
    ratTrunc ((ANIMATION_VERTICAL_OFFSET : ℚ) * (1 - animation_progress))
  else 0

/-- The SIMPLE_FADE branch of LyricTimeline._get_render_position
(src/lyric_timeline.py:532-541): horizontally centered, vertically placed
at the configured y (default video_height // 2) minus half the text
height, shifted down by the animation offset.  Python // is floor
division, hence Int.fdiv. -/
def get_render_position_simple (text_height text_width video_width video_height : ℤ)
    (y_position : Option ℤ) (animation_progress : ℚ) : ℤ × ℤ :=
  let vertical_offset := vertical_offset_of animation_progress
  let y_pos := y_position.getD (Int.fdiv video_height 2)
  (Int.fdiv (video_width - text_width) 2,
   y_pos - Int.fdiv text_height 2 + vertical_offset)

/-- The clamped draw region of LyricTimeline._opencv_alpha_blend: x0, y0
are the clamped origin, x1, y1 the exclusive end coordinates. -/
structure BlendRegion where
  x0 : ℤ
  y0 : ℤ
  x1 : ℤ
  y1 : ℤ
deriving DecidableEq

/-- The coordinate clamping of LyricTimeline._opencv_alpha_blend
(src/lyric_timeline.py:566-573): clamp the draw origin into the buffer,
then intersect the bitmap extent with the buffer extent. -/
def clamped_blend_region (bg_height bg_width fg_height fg_width : ℕ)
    (x y : ℤ) : BlendRegion :=
  let xc := max 0 (min x ((bg_width : ℤ) - (fg_width : ℤ)))
  let yc := max 0 (min y ((bg_height : ℤ) - (fg_height : ℤ)))
  let end_x := min (xc + (fg_width : ℤ)) (bg_width : ℤ)
  let end_y := min (yc + (fg_height : ℤ)) (bg_height : ℤ)
  ⟨xc, yc, end_x, end_y⟩

/-- Embeds LyricTimeline._opencv_alpha_blend (src/lyric_timeline.py:558-589)
for one color channel.  Buffers are total functions from pixel
coordinates to channel values; the numpy slice assignment becomes a
pointwise update restricted to the clamped region.  The float blend
dst * (1 - alpha) + src * alpha with alpha = fg_alpha / 255 * alpha_factor
is computed in the rationals and cast back to uint8 by truncation modulo
256, the numpy astype conversion. -/
def opencv_alpha_blend (background : ℕ → ℕ → ℤ) (bg_height bg_width : ℕ)
    (fg_color fg_alpha : ℕ → ℕ → ℤ) (fg_height fg_width : ℕ)
    (x y : ℤ) (alpha_factor : ℚ) : ℕ → ℕ → ℤ :=
  let r := clamped_blend_region bg_height bg_width fg_height fg_width x y
  if r.y1 - r.y0 ≤ 0 ∨ r.x1 - r.x0 ≤ 0 then background
  else fun i j =>
    if r.y0 ≤ (i : ℤ) ∧ (i : ℤ) < r.y1 ∧ r.x0 ≤ (j : ℤ) ∧ (j : ℤ) < r.x1 then
      let fi := ((i : ℤ) - r.y0).toNat
      let fj := ((j : ℤ) - r.x0).toNat
      let alpha : ℚ := (fg_alpha fi fj : ℚ) / 255 * alpha_factor
      (ratTrunc ((background i j : ℚ) * (1 - alpha) + (fg_color fi fj : ℚ) * alpha)) % 256
    else background i j

/-- Stacking recursion equivalent to the second loop of
arrange_elements once the id-keyed dicts are resolved: assign each rect
the running y and advance by height plus spacing. -/
def stackFrom (spacing : ℤ) : RectDict → ℤ → RectDict
  | [], _ => []
  | (id1, r) :: rest, yv =>
    (id1, ⟨r.x, yv, r.width, r.height⟩) :: stackFrom spacing rest (yv + r.height + spacing)

/-!  Helper lemmas about the timeline model. -/

/-- Animation progress is nonnegative in every branch, so the final filter
of get_content_at_time never rejects a visible entry. -/
theorem calculate_animation_progress_nonneg (t start_time : ℚ) (duration : Option ℚ)
    (animation_duration : ℚ) :
    0 ≤ calculate_animation_progress t start_time duration animation_duration := by
  unfold calculate_animation_progress
  rcases duration with _ | d <;> dsimp only <;> split_ifs <;> norm_num

/-- Full characterization of the loop body lyric_at. -/
theorem lyric_at_eq_some_iff (lyrics_data : LyricsData) (t : ℚ)
    (max_duration : Option ℚ) (animation_duration : ℚ) (i : ℕ) (s : ℚ) (τ : String)
    (a : ActiveLyric) :
    lyric_at lyrics_data t max_duration animation_duration (i, s, τ) = some a ↔
      (s - animation_duration ≤ t ∧
       fade_out_ok t s (calculate_lyric_duration lyrics_data i max_duration) = true ∧
       a = ⟨τ, s, calculate_lyric_duration lyrics_data i max_duration,
            calculate_animation_progress t s
              (calculate_lyric_duration lyrics_data i max_duration) animation_duration, i⟩) := by
  unfold lyric_at
  dsimp only
  split_ifs with hv hp
  · simp only [Bool.and_eq_true, decide_eq_true_eq] at hv
    simp only [Option.some_inj]
    constructor
    · rintro rfl
      exact ⟨hv.1, hv.2, rfl⟩
    · rintro ⟨-, -, rfl⟩
      rfl
  · exact absurd (calculate_animation_progress_nonneg t s _ animation_duration) hp
  · simp only [Bool.and_eq_true, decide_eq_true_eq] at hv
    constructor
    · rintro ⟨⟩
    · rintro ⟨h1, h2, -⟩
      exact absurd ⟨h1, h2⟩ hv

/-- Membership in the result of get_content_at_time, characterized by the
entry index. -/
theorem mem_get_content_iff (lyrics_data : LyricsData) (t : ℚ)
    (max_duration : Option ℚ) (animation_duration : ℚ) (a : ActiveLyric) :
    a ∈ get_content_at_time lyrics_data t max_duration animation_duration ↔
      ∃ s τ, lyrics_data[a.index]? = some (s, τ) ∧
        lyric_at lyrics_data t max_duration animation_duration (a.index, s, τ) = some a := by
  unfold get_content_at_time
  rw [List.mem_insertionSort, List.mem_filterMap]
  constructor
  · rintro ⟨⟨i, s, τ⟩, hmem, hsome⟩
    have hidx : a.index = i := by
      rw [lyric_at_eq_some_iff] at hsome
      rw [hsome.2.2]
    rw [List.mem_enum_iff_getElem?] at hmem
    subst hidx
    exact ⟨s, τ, hmem, hsome⟩
  · rintro ⟨s, τ, hget, hsome⟩
    refine ⟨(a.index, s, τ), ?_, hsome⟩
    rw [List.mem_enum_iff_getElem?]
    exact hget

/-- An entry index appears among the visible lyrics exactly when the query
time lies in the extended visibility window of that entry. -/
theorem exists_index_mem_iff (lyrics_data : LyricsData) (t : ℚ)
    (max_duration : Option ℚ) (animation_duration : ℚ) (i : ℕ) (s : ℚ) (τ : String)
    (hget : lyrics_data[i]? = some (s, τ)) :
    (∃ a ∈ get_content_at_time lyrics_data t max_duration animation_duration, a.index = i)
      ↔ (s - animation_duration ≤ t ∧
         fade_out_ok t s (calculate_lyric_duration lyrics_data i max_duration) = true) := by
  constructor
  · rintro ⟨a, hmem, hidx⟩
    rw [mem_get_content_iff] at hmem
    obtain ⟨s2, τ2, hget2, hsome⟩ := hmem
    rw [hidx] at hget2 hsome
    rw [hget] at hget2
    injection hget2 with hpair
    injection hpair with h1 h2
    subst h1
    subst h2
    rw [lyric_at_eq_some_iff] at hsome
    exact ⟨hsome.1, hsome.2.1⟩
  · rintro ⟨h1, h2⟩
    refine ⟨⟨τ, s, calculate_lyric_duration lyrics_data i max_duration,
      calculate_animation_progress t s
        (calculate_lyric_duration lyrics_data i max_duration) animation_duration, i⟩, ?_, rfl⟩
    rw [mem_get_content_iff]
    exact ⟨s, τ, hget, (lyric_at_eq_some_iff ..).2 ⟨h1, h2, rfl⟩⟩

/-- Every element of a get_content_at_time result has nonnegative
animation progress. -/
theorem mem_get_content_progress_nonneg (lyrics_data : LyricsData) (t : ℚ)
    (max_duration : Option ℚ) (animation_duration : ℚ) (a : ActiveLyric)
    (hmem : a ∈ get_content_at_time lyrics_data t max_duration animation_duration) :
    0 ≤ a.animation_progress := by
  rw [mem_get_content_iff] at hmem
  obtain ⟨s, τ, -, hsome⟩ := hmem
  rw [lyric_at_eq_some_iff] at hsome
  rw [hsome.2.2]
  exact calculate_animation_progress_nonneg ..

/-- C1: for a Track with fade duration 0.3, an entry with start time s and
finite computed duration d is returned by get_content_at_time exactly when
s - 0.3 <= t < s + d, and every returned entry carries a nonnegative
animation progress. -/
theorem c1_visibility_window (lyrics_data : LyricsData) (i : ℕ) (s : ℚ) (τ : String)
    (t : ℚ) (max_duration : Option ℚ) (d : ℚ)
    (hget : lyrics_data[i]? = some (s, τ))
    (hdur : calculate_lyric_duration lyrics_data i max_duration = some d) :
    ((∃ a ∈ get_content_at_time lyrics_data t max_duration (3/10), a.index = i) ↔
      (s - 3/10 ≤ t ∧ t < s + d))
    ∧ ∀ a ∈ get_content_at_time lyrics_data t max_duration (3/10),
        0 ≤ a.animation_progress := by
  constructor
  · rw [exists_index_mem_iff lyrics_data t max_duration (3/10) i s τ hget, hdur]
    unfold fade_out_ok
    simp only [decide_eq_true_eq]
  · exact fun a hmem => mem_get_content_progress_nonneg _ _ _ _ a hmem

/-- Witness for c1_visibility_window: in the one-entry track [(0, x)] with
bound 10 the computed duration is 10, and the entry is indeed returned at
time 5. -/
theorem c1_visibility_window_witness :
    ∃ a ∈ get_content_at_time [((0:ℚ), "x")] 5 (some 10) (3/10), a.index = 0 := by
  have h := c1_visibility_window [((0:ℚ), "x")] 0 0 "x" 5 (some 10) 10 rfl
    (by norm_num [calculate_lyric_duration])
  exact h.1.mpr (by norm_num)

/-- C2 counterexample: a single entry at time 0 with render bound 1 gets
computed duration max 3 (1 - 0) = 3, not the claimed bound difference 1;
and with no bound LyricTimeline._calculate_lyric_duration returns
infinity (none), not 3 seconds. -/
theorem c2_counterexample :
    calculate_lyric_duration [((0:ℚ), "a")] 0 (some 1) = some 3
    ∧ ((3:ℚ) ≠ (1:ℚ) - 0)
    ∧ calculate_lyric_duration [((0:ℚ), "a")] 0 none = none := by
  refine ⟨by norm_num [calculate_lyric_duration], by norm_num, rfl⟩

/-- C2 (amended): every non-last entry of a Track has computed duration
startTime(i+1) - startTime(i) in both implementations; for the last entry
LyricTimeline._calculate_lyric_duration gives max 3 (maxDuration -
startTime) when a bound is supplied and infinity (none) otherwise, while
LyricContentFactory.calculate_lyric_duration, which takes no bound,
always gives 3 seconds. -/
theorem c2_duration_computation (lyrics_data : LyricsData) (i : ℕ) (s : ℚ) (τ : String)
    (max_duration : Option ℚ)
    (hget : lyrics_data[i]? = some (s, τ)) :
    (∀ s2 τ2, lyrics_data[i + 1]? = some (s2, τ2) →
        calculate_lyric_duration lyrics_data i max_duration = some (s2 - s)
        ∧ factory_calculate_lyric_duration lyrics_data i = s2 - s)
    ∧ (lyrics_data[i + 1]? = none →
        (∀ m, max_duration = some m →
          calculate_lyric_duration lyrics_data i max_duration = some (max 3 (m - s)))
        ∧ (max_duration = none →
          calculate_lyric_duration lyrics_data i max_duration = none)
        ∧ factory_calculate_lyric_duration lyrics_data i = 3) := by
  unfold calculate_lyric_duration factory_calculate_lyric_duration
  rw [hget]
  constructor
  · intro s2 τ2 hnext
    rw [hnext]
    exact ⟨rfl, rfl⟩
  · intro hnone
    rw [hnone]
    exact ⟨fun m hm => by rw [hm], fun hm => by rw [hm], rfl⟩

/-- Witness for c2_duration_computation: in [(0, a), (2, b)] the first
entry lasts 2 - 0 seconds. -/
theorem c2_duration_computation_witness :
    calculate_lyric_duration [((0:ℚ), "a"), (2, "b")] 0 none = some ((2:ℚ) - 0) :=
  ((c2_duration_computation [((0:ℚ), "a"), (2, "b")] 0 0 "a" none rfl).1 2 "b" rfl).1

/-- C4 counterexample: in the track [(1, a), (1, b)] entry 0 has computed
duration 1 - 1 = 0 (its timestamp equals the next entry timestamp), yet
get_content_at_time still returns it at query time 0.9, inside the
backward-extended fade-in window [0.7, 1). -/
theorem c4_counterexample :
    (⟨"a", 1, some (1 - 1), 2/3, 0⟩ : ActiveLyric) ∈
      get_content_at_time [((1:ℚ), "a"), (1, "b")] (9/10) none (3/10) := by
  rw [mem_get_content_iff]
  refine ⟨1, "a", rfl, ?_⟩
  rw [lyric_at_eq_some_iff]
  refine ⟨by norm_num, by norm_num [fade_out_ok, calculate_lyric_duration], ?_⟩
  have hd : calculate_lyric_duration [((1:ℚ), "a"), (1, "b")] 0 none = some (1 - 1) := rfl
  rw [hd]
  have hp : calculate_animation_progress (9/10) 1 (some (1 - 1)) (3/10) = 2/3 := by
    unfold calculate_animation_progress
    norm_num
  rw [hp]

/-- C4 (amended): an entry with non-positive computed duration d is not
dropped: it is returned by get_content_at_time exactly for query times in
the window [s - 0.3, s + d), which is nonempty whenever d > -0.3, and it
is never returned at or after s + d. -/
theorem c4_nonpositive_duration_window (lyrics_data : LyricsData) (i : ℕ) (s : ℚ)
    (τ : String) (t : ℚ) (max_duration : Option ℚ) (d : ℚ)
    (hget : lyrics_data[i]? = some (s, τ))
    (hdur : calculate_lyric_duration lyrics_data i max_duration = some d)
    (_hd : d ≤ 0) :
    (∃ a ∈ get_content_at_time lyrics_data t max_duration (3/10), a.index = i) ↔
      (s - 3/10 ≤ t ∧ t < s + d) := by
  rw [exists_index_mem_iff lyrics_data t max_duration (3/10) i s τ hget, hdur]
  unfold fade_out_ok
  simp only [decide_eq_true_eq]

/-- Witness for c4_nonpositive_duration_window: the zero-duration entry 0
of [(1, a), (1, b)] is not visible at its own start time 1. -/
theorem c4_nonpositive_duration_window_witness :
    ¬ ∃ a ∈ get_content_at_time [((1:ℚ), "a"), (1, "b")] 1 none (3/10), a.index = 0 := by
  intro hmem
  have h := (c4_nonpositive_duration_window [((1:ℚ), "a"), (1, "b")] 0 1 "a" 1 none
    (1 - 1) rfl rfl (by norm_num)).mp hmem
  norm_num at h

/-- C7 counterexample: the all-whitespace entry of the track [(0, a single
space)] is still returned as visible content by get_content_at_time at
query time 0, with full animation progress. -/
theorem c7_counterexample :
    get_content_at_time [((0:ℚ), " ")] 0 none (3/10)
      = [⟨" ", 0, none, 1, 0⟩] := by
  unfold get_content_at_time lyric_at
  norm_num [List.enum_cons, List.filterMap_cons, calculate_lyric_duration, fade_out_ok,
    calculate_animation_progress, List.insertionSort, List.orderedInsert]

/-- C7 (amended): an entry whose text is all whitespace after line
splitting is dropped at preprocessing wherever it sits in the track: it
contributes nothing to the preprocessed lyrics, to the maximum line count,
or to get_processed_lyrics.  It is, however, still returned by
get_content_at_time, which iterates over the raw entries
(see c7_counterexample). -/
theorem c7_whitespace_preprocessing (l1 l2 : LyricsData) (ts : ℚ) (text : String)
    (max_duration : Option ℚ)
    (hblank : clean_lines text = []) :
    preprocess_lyrics (l1 ++ (ts, text) :: l2) = preprocess_lyrics (l1 ++ l2)
    ∧ calculate_max_lines (preprocess_lyrics (l1 ++ (ts, text) :: l2))
        = calculate_max_lines (preprocess_lyrics (l1 ++ l2))
    ∧ get_processed_lyrics (l1 ++ (ts, text) :: l2) max_duration
        = get_processed_lyrics (l1 ++ l2) max_duration := by
  have h1 : preprocess_lyrics (l1 ++ (ts, text) :: l2) = preprocess_lyrics (l1 ++ l2) := by
    unfold preprocess_lyrics
    rw [List.filterMap_append, List.filterMap_append, List.filterMap_cons]
    dsimp only
    rw [hblank]
    simp
  exact ⟨h1, by rw [h1], by unfold get_processed_lyrics; rw [h1]⟩

/-- Witness for c7_whitespace_preprocessing: inserting the whitespace entry
(1, a single space) into the track [(0, x)] changes neither the
preprocessed lyrics nor the maximum line count. -/
theorem c7_whitespace_preprocessing_witness :
    preprocess_lyrics [((1:ℚ), " "), ((0:ℚ), "x")]
      = preprocess_lyrics [((0:ℚ), "x")]
    ∧ calculate_max_lines (preprocess_lyrics [((1:ℚ), " "), ((0:ℚ), "x")])
      = calculate_max_lines (preprocess_lyrics [((0:ℚ), "x")]) := by
  have h := c7_whitespace_preprocessing [] [((0:ℚ), "x")] 1 " " none (by decide)
  exact ⟨h.1, h.2.1⟩

/-- During the fade-in phase (strictly before the start time) the progress
is the clamped fade-in ramp, for any nonnegative or infinite duration. -/
theorem progress_fade_in_phase (t s : ℚ) (dOpt : Option ℚ) (A : ℚ)
    (h1 : s - A ≤ t) (h2 : t < s)
    (hd : ∀ d, dOpt = some d → 0 ≤ d) :
    calculate_animation_progress t s dOpt A = max 0 (min 1 ((t - (s - A)) / A)) := by
  unfold calculate_animation_progress
  rcases dOpt with _ | d
  · dsimp only
    rw [if_neg (not_lt.mpr h1), if_pos h2]
  · dsimp only
    have hd0 : 0 ≤ d := hd d rfl
    rw [if_neg, if_pos h2]
    rintro (h | h) <;> linarith

/-- The fade-in ramp is monotone in the query time. -/
theorem progress_fade_in_monotone (s : ℚ) (dOpt : Option ℚ) (A u v : ℚ) (hA : 0 < A)
    (hd : ∀ d, dOpt = some d → 0 ≤ d)
    (h1 : s - A ≤ u) (huv : u ≤ v) (hv : v < s) :
    calculate_animation_progress u s dOpt A ≤ calculate_animation_progress v s dOpt A := by
  rw [progress_fade_in_phase u s dOpt A h1 (lt_of_le_of_lt huv hv) hd,
    progress_fade_in_phase v s dOpt A (h1.trans huv) hv hd]
  gcongr

/-- At or after the start time and before the end, the progress is 1 during
full visibility and the clamped fade-out ramp afterwards. -/
theorem progress_at_tail (s d A w : ℚ) (hA : 0 < A) (hsw : s ≤ w) (hw : w < s + d) :
    calculate_animation_progress w s (some d) A
      = if w - s ≤ d - A then 1 else max 0 (1 - ((w - s) - (d - A)) / A) := by
  unfold calculate_animation_progress
  dsimp only
  rw [if_neg, if_neg (not_lt.mpr hsw)]
  · split_ifs with h1 h2
    · rfl
    · rfl
    · exact absurd (not_le.mp h1).le h2
  · rintro (h | h) <;> linarith

/-- On the tail of the visibility window the progress is antitone in the
query time. -/
theorem progress_tail_antitone (s d A u v : ℚ) (hA : 0 < A)
    (hsu : s ≤ u) (huv : u ≤ v) (hv : v < s + d) :
    calculate_animation_progress v s (some d) A
      ≤ calculate_animation_progress u s (some d) A := by
  rw [progress_at_tail s d A v hA (hsu.trans huv) hv,
    progress_at_tail s d A u hA hsu (lt_of_le_of_lt huv hv)]
  split_ifs with h1 h2
  · exact le_refl 1
  · exact absurd (le_trans (by linarith : u - s ≤ v - s) h1) h2
  · refine max_le (by norm_num) (by
      have hnum : (0:ℚ) ≤ (v - s) - (d - A) := by
        have := not_le.mp h1
        linarith
      have : 0 ≤ ((v - s) - (d - A)) / A := div_nonneg hnum hA.le
      linarith)
  · gcongr

/-- C3 (amended): for a time-sorted Track with consecutive entries at
s0 < s1 and fade duration 0 < A <= s1 - s0, over the overlap window
[s1 - A, s0 + d0) with d0 = s1 - s0 both entries are returned as visible,
the incoming entry progress is monotonically increasing in the query time
and the outgoing entry progress is monotonically decreasing.  The bound
A <= s1 - s0 is necessary: when the fade is longer than the gap the
outgoing entry is still in its own fade-in and its progress increases
(see c3_counterexample). -/
theorem c3_crossfade_monotonicity (lyrics_data : LyricsData) (i : ℕ)
    (s0 s1 : ℚ) (τ0 τ1 : String) (max_duration : Option ℚ) (A t tp : ℚ)
    (hchain : List.Chain' (fun p q => p.1 ≤ q.1) lyrics_data)
    (h0 : lyrics_data[i]? = some (s0, τ0))
    (h1 : lyrics_data[i + 1]? = some (s1, τ1))
    (hlt : s0 < s1) (hA : 0 < A) (hAle : A ≤ s1 - s0)
    (ht : s1 - A ≤ t) (htt : t ≤ tp) (htp : tp < s0 + (s1 - s0)) :
    (∃ a ∈ get_content_at_time lyrics_data t max_duration A, a.index = i)
    ∧ (∃ a ∈ get_content_at_time lyrics_data t max_duration A, a.index = i + 1)
    ∧ (∃ a ∈ get_content_at_time lyrics_data tp max_duration A, a.index = i)
    ∧ (∃ a ∈ get_content_at_time lyrics_data tp max_duration A, a.index = i + 1)
    ∧ calculate_animation_progress t s1
        (calculate_lyric_duration lyrics_data (i + 1) max_duration) A
      ≤ calculate_animation_progress tp s1
        (calculate_lyric_duration lyrics_data (i + 1) max_duration) A
    ∧ calculate_animation_progress tp s0
        (calculate_lyric_duration lyrics_data i max_duration) A
      ≤ calculate_animation_progress t s0
        (calculate_lyric_duration lyrics_data i max_duration) A := by
  have hdur0 : calculate_lyric_duration lyrics_data i max_duration = some (s1 - s0) := by
    unfold calculate_lyric_duration
    rw [h0, h1]
  have hd1 : ∀ d, calculate_lyric_duration lyrics_data (i + 1) max_duration = some d →
      0 ≤ d := by
    intro d hd
    unfold calculate_lyric_duration at hd
    rw [h1] at hd
    cases hnext : lyrics_data[i + 1 + 1]? with
    | some p =>
      rw [hnext] at hd
      injection hd with hd
      have hle : s1 ≤ p.1 := by
        rw [List.getElem?_eq_some] at h1 hnext
        obtain ⟨hi1, hv1⟩ := h1
        obtain ⟨hi2, hv2⟩ := hnext
        rw [List.chain'_iff_get] at hchain
        have := hchain (i + 1) (by omega)
        rw [List.get_eq_getElem, List.get_eq_getElem] at this
        rw [hv1] at this
        rw [hv2] at this
        exact this
      rw [← hd]
      linarith
    | none =>
      rw [hnext] at hd
      cases max_duration with
      | some m =>
        injection hd with hd
        rw [← hd]
        exact le_trans (by norm_num) (le_max_left 3 (m - s1))
      | none => exact absurd hd (by simp)
  have htps1 : tp < s1 := by linarith
  have hts1 : t < s1 := lt_of_le_of_lt htt htps1
  have hs0t : s0 ≤ t := by linarith
  have hfade1 : ∀ u, u < s1 →
      fade_out_ok u s1 (calculate_lyric_duration lyrics_data (i + 1) max_duration) = true := by
    intro u hu
    unfold fade_out_ok
    cases hc : calculate_lyric_duration lyrics_data (i + 1) max_duration with
    | none => rfl
    | some d =>
      have := hd1 d hc
      simp only [decide_eq_true_eq]
      linarith
  refine ⟨?_, ?_, ?_, ?_, ?_, ?_⟩
  · exact (exists_index_mem_iff lyrics_data t max_duration A i s0 τ0 h0).mpr
      ⟨by linarith, by rw [hdur0]; unfold fade_out_ok; simp only [decide_eq_true_eq]; linarith⟩
  · exact (exists_index_mem_iff lyrics_data t max_duration A (i + 1) s1 τ1 h1).mpr
      ⟨by linarith, hfade1 t hts1⟩
  · exact (exists_index_mem_iff lyrics_data tp max_duration A i s0 τ0 h0).mpr
      ⟨by linarith, by rw [hdur0]; unfold fade_out_ok; simp only [decide_eq_true_eq]; linarith⟩
  · exact (exists_index_mem_iff lyrics_data tp max_duration A (i + 1) s1 τ1 h1).mpr
      ⟨by linarith, hfade1 tp htps1⟩
  · exact progress_fade_in_monotone s1 _ A t tp hA hd1 (by linarith) htt htps1
  · rw [hdur0]
    exact progress_tail_antitone s0 (s1 - s0) A t tp hA hs0t htt (by linarith)

/-- C3 counterexample: in the track [(1, a), (1.1, b)] with the fixed fade
0.3 the overlap window [s1 - A, s0 + d0) is [0.8, 1.1).  At the times 0.8
and 0.9, both inside the window and increasing, both entries are returned,
but the earlier (outgoing) entry 0 has progress 1/3 and then 2/3: its
progress increases, because the 0.3 fade is longer than the 0.1 gap and
entry 0 is still in its own fade-in. -/
theorem c3_counterexample :
    (⟨"a", 1, some (11/10 - 1), 1/3, 0⟩ : ActiveLyric) ∈
      get_content_at_time [((1:ℚ), "a"), (11/10, "b")] (4/5) none (3/10)
    ∧ (⟨"b", 11/10, none, 0, 1⟩ : ActiveLyric) ∈
      get_content_at_time [((1:ℚ), "a"), (11/10, "b")] (4/5) none (3/10)
    ∧ (⟨"a", 1, some (11/10 - 1), 2/3, 0⟩ : ActiveLyric) ∈
      get_content_at_time [((1:ℚ), "a"), (11/10, "b")] (9/10) none (3/10)
    ∧ (⟨"b", 11/10, none, 1/3, 1⟩ : ActiveLyric) ∈
      get_content_at_time [((1:ℚ), "a"), (11/10, "b")] (9/10) none (3/10)
    ∧ ((1:ℚ)/3 < 2/3) := by
  refine ⟨?_, ?_, ?_, ?_, by norm_num⟩
  · rw [mem_get_content_iff]
    refine ⟨1, "a", rfl, ?_⟩
    rw [lyric_at_eq_some_iff]
    refine ⟨by norm_num, by norm_num [fade_out_ok, calculate_lyric_duration], ?_⟩
    have hd : calculate_lyric_duration [((1:ℚ), "a"), (11/10, "b")] 0 none
        = some (11/10 - 1) := rfl
    rw [hd]
    have hp : calculate_animation_progress (4/5) 1 (some (11/10 - 1)) (3/10) = 1/3 := by
      unfold calculate_animation_progress
      norm_num
    rw [hp]
  · rw [mem_get_content_iff]
    refine ⟨11/10, "b", rfl, ?_⟩
    rw [lyric_at_eq_some_iff]
    refine ⟨by norm_num, by norm_num [fade_out_ok, calculate_lyric_duration], ?_⟩
    have hd : calculate_lyric_duration [((1:ℚ), "a"), (11/10, "b")] 1 none = none := rfl
    rw [hd]
    have hp : calculate_animation_progress (4/5) (11/10) none (3/10) = 0 := by
      unfold calculate_animation_progress
      norm_num
    rw [hp]
  · rw [mem_get_content_iff]
    refine ⟨1, "a", rfl, ?_⟩
    rw [lyric_at_eq_some_iff]
    refine ⟨by norm_num, by norm_num [fade_out_ok, calculate_lyric_duration], ?_⟩
    have hd : calculate_lyric_duration [((1:ℚ), "a"), (11/10, "b")] 0 none
        = some (11/10 - 1) := rfl
    rw [hd]
    have hp : calculate_animation_progress (9/10) 1 (some (11/10 - 1)) (3/10) = 2/3 := by
      unfold calculate_animation_progress
      norm_num
    rw [hp]
  · rw [mem_get_content_iff]
    refine ⟨11/10, "b", rfl, ?_⟩
    rw [lyric_at_eq_some_iff]
    refine ⟨by norm_num, by norm_num [fade_out_ok, calculate_lyric_duration], ?_⟩
    have hd : calculate_lyric_duration [((1:ℚ), "a"), (11/10, "b")] 1 none = none := rfl
    rw [hd]
    have hp : calculate_animation_progress (9/10) (11/10) none (3/10) = 1/3 := by
      unfold calculate_animation_progress
      norm_num
    rw [hp]

/-- Witness for c3_crossfade_monotonicity: in the track [(0, x), (1, y)]
with fade 0.3, the outgoing entry progress at 0.8 is at most its progress
at 0.7. -/
theorem c3_crossfade_monotonicity_witness :
    calculate_animation_progress (4/5) 0
      (calculate_lyric_duration [((0:ℚ), "x"), (1, "y")] 0 none) (3/10)
    ≤ calculate_animation_progress (7/10) 0
      (calculate_lyric_duration [((0:ℚ), "x"), (1, "y")] 0 none) (3/10) := by
  have h := c3_crossfade_monotonicity [((0:ℚ), "x"), (1, "y")] 0 0 1 "x" "y" none
    (3/10) (7/10) (4/5)
    (by norm_num [List.chain'_cons]) rfl rfl (by norm_num) (by norm_num) (by norm_num)
    (by norm_num) (by norm_num) (by norm_num)
  exact h.2.2.2.2.2

/-!  Helper lemmas about the layout model. -/

/-- Inserting a key absent from the dict appends. -/
theorem dictInsert_of_not_mem (m : RectDict) (k : String) (v : LyricRect)
    (h : ∀ p ∈ m, p.1 ≠ k) : dictInsert m k v = m ++ [(k, v)] := by
  unfold dictInsert
  rw [if_neg]
  simp only [List.any_eq_true, not_exists]
  intro p
  rw [not_and]
  intro hp hbeq
  exact h p hp (by simpa using hbeq)

/-- Folding dict insertions of elements with pairwise distinct ids, none of
which occur in the accumulator, appends the corresponding pairs. -/
theorem foldl_dictInsert_eq_append (l : List LayoutElement) (f : LayoutElement → LyricRect)
    (acc : RectDict)
    (hnd : (l.map LayoutElement.element_id).Nodup)
    (hdisj : ∀ e ∈ l, ∀ p ∈ acc, p.1 ≠ e.element_id) :
    l.foldl (fun m e => dictInsert m e.element_id (f e)) acc
      = acc ++ l.map (fun e => (e.element_id, f e)) := by
  induction l generalizing acc with
  | nil => simp
  | cons e rest ih =>
    simp only [List.foldl_cons, List.map_cons]
    rw [dictInsert_of_not_mem _ _ _ (fun p hp => hdisj e (List.mem_cons_self e rest) p hp)]
    have hdisj2 : ∀ e2 ∈ rest, ∀ p ∈ acc ++ [(e.element_id, f e)], p.1 ≠ e2.element_id := by
      intro e2 he2 p hp
      rcases List.mem_append.mp hp with hacc | hsingle
      · exact hdisj e2 (List.mem_cons_of_mem e he2) p hacc
      · have hpe : p = (e.element_id, f e) := by simpa using hsingle
        rw [hpe]
        intro hcontra
        have : e.element_id ∈ rest.map LayoutElement.element_id :=
          List.mem_map.mpr ⟨e2, he2, hcontra.symm⟩
        rw [List.map_cons] at hnd
        exact (List.nodup_cons.mp hnd).1 this
    rw [ih (acc ++ [(e.element_id, f e)]) (by simpa using hnd.of_cons) hdisj2]
    simp

/-- Lookup of the key of the k-th entry of a dict with pairwise distinct
keys yields the k-th value. -/
theorem dictGet?_get_of_nodup (m : RectDict) (hnd : (m.map Prod.fst).Nodup)
    (k : ℕ) (hk : k < m.length) :
    dictGet? m (m.get ⟨k, hk⟩).1 = some (m.get ⟨k, hk⟩).2 := by
  induction m generalizing k with
  | nil => simp at hk
  | cons p rest ih =>
    cases k with
    | zero =>
      unfold dictGet?
      rw [List.find?_cons_of_pos _ (by simp)]
      rfl
    | succ k2 =>
      have hk2 : k2 < rest.length := by simpa using hk
      have hget : (p :: rest).get ⟨k2 + 1, hk⟩ = rest.get ⟨k2, hk2⟩ := rfl
      rw [hget]
      unfold dictGet?
      rw [List.find?_cons_of_neg]
      · exact ih (by simpa using hnd.of_cons) k2 hk2
      · simp only [beq_iff_eq]
        intro hcontra
        have : p.1 ∈ rest.map Prod.fst := by
          rw [hcontra]
          exact List.mem_map.mpr ⟨rest.get ⟨k2, hk2⟩, List.get_mem rest k2 hk2, rfl⟩
        rw [List.map_cons] at hnd
        exact (List.nodup_cons.mp hnd).1 this

/-- Lookup of an element id in the dict built from a list of elements with
pairwise distinct ids. -/
theorem dictGet?_map_of_mem (l : List LayoutElement) (f : LayoutElement → LyricRect)
    (hnd : (l.map LayoutElement.element_id).Nodup) (e : LayoutElement) (he : e ∈ l) :
    dictGet? (l.map (fun e2 => (e2.element_id, f e2))) e.element_id = some (f e) := by
  induction l with
  | nil => cases he
  | cons a rest ih =>
    rcases List.mem_cons.mp he with rfl | hmem
    · unfold dictGet?
      rw [List.map_cons, List.find?_cons_of_pos _ (by simp)]
      rfl
    · have hne : (a.element_id == e.element_id) = false := by
        simp only [beq_eq_false_iff_ne, ne_eq]
        intro hcontra
        have : a.element_id ∈ rest.map LayoutElement.element_id := by
          rw [hcontra]
          exact List.mem_map.mpr ⟨e, hmem, rfl⟩
        rw [List.map_cons] at hnd
        exact (List.nodup_cons.mp hnd).1 this
      unfold dictGet?
      rw [List.map_cons, List.find?_cons_of_neg _ (by simp [hne])]
      exact ih (by simpa using hnd.of_cons) hmem

/-- stackFrom preserves length. -/
theorem stackFrom_length (spacing : ℤ) (pairs : RectDict) (y : ℤ) :
    (stackFrom spacing pairs y).length = pairs.length := by
  induction pairs generalizing y with
  | nil => rfl
  | cons p rest ih =>
    obtain ⟨id1, r⟩ := p
    simp [stackFrom, ih]

/-- stackFrom preserves the key sequence. -/
theorem stackFrom_keys (spacing : ℤ) (pairs : RectDict) (y : ℤ) :
    (stackFrom spacing pairs y).map Prod.fst = pairs.map Prod.fst := by
  induction pairs generalizing y with
  | nil => rfl
  | cons p rest ih =>
    obtain ⟨id1, r⟩ := p
    simp [stackFrom, ih]

/-- The k-th stacked entry keeps the key, x, width and height of the k-th
input pair and receives the running y: the start y plus the heights and
spacings of all previous pairs. -/
theorem stackFrom_get (spacing : ℤ) (pairs : RectDict) (y : ℤ) (k : ℕ)
    (hk : k < pairs.length) (hk2 : k < (stackFrom spacing pairs y).length) :
    (stackFrom spacing pairs y).get ⟨k, hk2⟩
      = ((pairs.get ⟨k, hk⟩).1,
         ⟨(pairs.get ⟨k, hk⟩).2.x,
          y + ((pairs.take k).map (fun p => p.2.height + spacing)).sum,
          (pairs.get ⟨k, hk⟩).2.width, (pairs.get ⟨k, hk⟩).2.height⟩) := by
  induction pairs generalizing y k with
  | nil => simp at hk
  | cons p rest ih =>
    obtain ⟨id1, r⟩ := p
    cases k with
    | zero => simp [stackFrom]
    | succ k2 =>
      have hk3 : k2 < rest.length := by simpa using hk
      have hk4 : k2 < (stackFrom spacing rest (y + r.height + spacing)).length := by
        rw [stackFrom_length]
        exact hk3
      have hstep : (stackFrom spacing ((id1, r) :: rest) y).get ⟨k2 + 1, hk2⟩
          = (stackFrom spacing rest (y + r.height + spacing)).get ⟨k2, hk4⟩ := rfl
      rw [hstep, ih (y + r.height + spacing) k2 hk3 hk4]
      simp only [List.get_eq_getElem, List.getElem_cons_succ, List.take_succ_cons,
        List.map_cons, List.sum_cons, Prod.mk.injEq, LyricRect.mk.injEq, true_and,
        and_true]
      ring

/-- Every rect produced by stackFrom sits at or below the start y, given
positive heights and spacing. -/
theorem stackFrom_y_lower_bound (spacing : ℤ) (pairs : RectDict) (y : ℤ)
    (hpos : ∀ p ∈ pairs, 0 < p.2.height) (hsp : 0 < spacing) :
    ∀ q ∈ stackFrom spacing pairs y, y ≤ q.2.y := by
  induction pairs generalizing y with
  | nil => intro q hq; cases hq
  | cons p rest ih =>
    obtain ⟨id1, r⟩ := p
    intro q hq
    rcases List.mem_cons.mp hq with rfl | hmem
    · exact le_refl y
    · have hr : 0 < r.height := hpos (id1, r) (List.mem_cons_self _ _)
      have := ih (y + r.height + spacing) (fun p hp => hpos p (List.mem_cons_of_mem _ hp)) q hmem
      linarith

/-- Stacked rects are pairwise non-overlapping when heights and spacing
are positive: each rect ends strictly above where the next begins. -/
theorem stackFrom_pairwise_non_overlapping (spacing : ℤ) (pairs : RectDict) (y : ℤ)
    (hpos : ∀ p ∈ pairs, 0 < p.2.height) (hsp : 0 < spacing) :
    List.Pairwise (fun p q => p.2.overlaps_with q.2 = false) (stackFrom spacing pairs y) := by
  induction pairs generalizing y with
  | nil => exact List.Pairwise.nil
  | cons p rest ih =>
    obtain ⟨id1, r⟩ := p
    refine List.Pairwise.cons ?_ (ih (y + r.height + spacing)
      (fun p hp => hpos p (List.mem_cons_of_mem _ hp)))
    intro q hq
    have hy := stackFrom_y_lower_bound spacing rest (y + r.height + spacing)
      (fun p hp => hpos p (List.mem_cons_of_mem _ hp)) hsp q hq
    unfold LyricRect.overlaps_with
    simp only [Bool.not_eq_false', Bool.or_eq_true, decide_eq_true_eq]
    left
    right
    linarith

/-- The position-assignment fold of arrange_elements, resolved against a
dict that maps every listed element id to its rect, equals stackFrom. -/
theorem positions_foldl_eq_stackFrom (spacing : ℤ) (M : RectDict)
    (l : List LayoutElement) (rectOf : LayoutElement → LyricRect)
    (hlook : ∀ e ∈ l, dictGet? M e.element_id = some (rectOf e))
    (hnd : (l.map LayoutElement.element_id).Nodup)
    (acc : RectDict) (y : ℤ)
    (hdisj : ∀ e ∈ l, ∀ p ∈ acc, p.1 ≠ e.element_id) :
    (l.foldl (fun (acc2 : RectDict × ℤ) e =>
        match dictGet? M e.element_id with
        | some rect =>
          (dictInsert acc2.1 e.element_id ⟨rect.x, acc2.2, rect.width, rect.height⟩,
            acc2.2 + rect.height + spacing)
        | none => acc2) (acc, y)).1
      = acc ++ stackFrom spacing (l.map (fun e => (e.element_id, rectOf e))) y := by
  induction l generalizing acc y with
  | nil => simp [stackFrom]
  | cons e rest ih =>
    simp only [List.foldl_cons]
    rw [hlook e (List.mem_cons_self e rest)]
    dsimp only
    rw [dictInsert_of_not_mem _ _ _ (fun p hp => hdisj e (List.mem_cons_self e rest) p hp)]
    have hdisj2 : ∀ e2 ∈ rest, ∀ p ∈ acc ++
        [(e.element_id,
          (⟨(rectOf e).x, y, (rectOf e).width, (rectOf e).height⟩ : LyricRect))],
        p.1 ≠ e2.element_id := by
      intro e2 he2 p hp
      rcases List.mem_append.mp hp with hacc | hsingle
      · exact hdisj e2 (List.mem_cons_of_mem e he2) p hacc
      · have hpe : p.1 = e.element_id := by
          have := List.mem_singleton.mp hsingle
          rw [this]
        rw [hpe]
        intro hcontra
        have : e.element_id ∈ rest.map LayoutElement.element_id :=
          List.mem_map.mpr ⟨e2, he2, hcontra.symm⟩
        rw [List.map_cons] at hnd
        exact (List.nodup_cons.mp hnd).1 this
    rw [ih (fun e2 he2 => hlook e2 (List.mem_cons_of_mem e he2))
      (by simpa using hnd.of_cons) _ _ hdisj2]
    simp [stackFrom]

/-- Under distinct element ids, arrange_elements is exactly the stacking of
the priority-sorted required rects, starting at the configured y or at the
vertically centered position. -/
theorem arrange_elements_eq_stackFrom (spacing : ℤ) (start_y : Option ℤ)
    (elements : List LayoutElement) (video_width video_height : ℤ)
    (hne : elements ≠ [])
    (hnd : (elements.map LayoutElement.element_id).Nodup) :
    arrange_elements spacing start_y elements video_width video_height
      = stackFrom spacing
          ((List.insertionSort (fun a b => a.priority ≤ b.priority) elements).map
            (fun e => (e.element_id, e.calc_rect video_width video_height)))
          (match start_y with
           | some yv => yv
           | none =>
             Int.fdiv (video_height -
               ((((List.insertionSort (fun a b => a.priority ≤ b.priority) elements).map
                   (fun e => (e.calc_rect video_width video_height).height)).sum
                 + spacing * ((elements.length : ℤ) - 1)))) 2) := by
  have hnds : (List.map LayoutElement.element_id
      (List.insertionSort (fun a b => a.priority ≤ b.priority) elements)).Nodup := by
    have hperm := List.perm_insertionSort (fun a b => a.priority ≤ b.priority) elements
    exact ((hperm.map LayoutElement.element_id).nodup_iff).mpr hnd
  have hrects : (List.insertionSort (fun a b => a.priority ≤ b.priority) elements).foldl
      (fun m e => dictInsert m e.element_id (e.calc_rect video_width video_height)) []
      = (List.insertionSort (fun a b => a.priority ≤ b.priority) elements).map
          (fun e => (e.element_id, e.calc_rect video_width video_height)) := by
    rw [foldl_dictInsert_eq_append _ _ [] hnds (by intro e he p hp; cases hp)]
    exact List.nil_append _
  unfold arrange_elements
  rw [if_neg (by simpa [List.isEmpty_iff] using hne)]
  dsimp only
  rw [hrects]
  rw [positions_foldl_eq_stackFrom spacing _ _
    (fun e => e.calc_rect video_width video_height)
    (fun e he => dictGet?_map_of_mem _ _ hnds e he) hnds [] _
    (by intro e he p hp; cases hp)]
  rw [List.nil_append]
  unfold dictValues
  rw [List.map_map, List.map_map]
  rfl

/-- Lookup in a stack of priority-sorted element rects: the element at
position k receives the start y plus the heights and spacings of the
previous elements. -/
theorem dictGet?_stackFrom_sorted (spacing : ℤ) (l : List LayoutElement)
    (video_width video_height : ℤ) (y0 : ℤ) (k : ℕ) (e : LayoutElement)
    (hnds : (l.map LayoutElement.element_id).Nodup)
    (hk : l[k]? = some e) :
    dictGet? (stackFrom spacing
        (l.map (fun e2 => (e2.element_id, e2.calc_rect video_width video_height))) y0)
        e.element_id
      = some ⟨(e.calc_rect video_width video_height).x,
          y0 + (((l.take k).map
            (fun e2 => (e2.calc_rect video_width video_height).height + spacing)).sum),
          (e.calc_rect video_width video_height).width,
          (e.calc_rect video_width video_height).height⟩ := by
  obtain ⟨hklen, hget⟩ := List.getElem?_eq_some.mp hk
  have hkp : k < (l.map
      (fun e2 => (e2.element_id, e2.calc_rect video_width video_height))).length := by
    rw [List.length_map]
    exact hklen
  have hsflen : k < (stackFrom spacing
      (l.map (fun e2 => (e2.element_id, e2.calc_rect video_width video_height)))
      y0).length := by
    rw [stackFrom_length]
    exact hkp
  have hnodup2 : ((stackFrom spacing
      (l.map (fun e2 => (e2.element_id, e2.calc_rect video_width video_height)))
      y0).map Prod.fst).Nodup := by
    rw [stackFrom_keys, List.map_map]
    exact hnds
  have hmain := dictGet?_get_of_nodup _ hnodup2 k hsflen
  rw [stackFrom_get _ _ _ k hkp hsflen] at hmain
  simp only [List.get_eq_getElem, List.getElem_map, hget] at hmain
  rw [← List.map_take, List.map_map] at hmain
  exact hmain

/-- C5: VerticalStackStrategy.arrange_elements sorts the registered
elements by ascending priority and stacks them top to bottom: the element
at sorted position k keeps its required x and width and is assigned
y = startY + sum of (height + spacing) over the previous sorted elements,
where startY is the configured start y if given and otherwise
(videoHeight - totalHeight) / 2 by floor division with
totalHeight = sum of heights + spacing * (n - 1).  In particular Scenario
B: priorities 1 and 10, heights 100 and 60, canvas height 720, spacing 30
give y = 265, h = 100 and y = 395, h = 60. -/
theorem c5_vertical_stack (elements : List LayoutElement) (spacing : ℤ)
    (start_y : Option ℤ) (video_width video_height : ℤ) (k : ℕ) (e : LayoutElement)
    (hnd : (elements.map LayoutElement.element_id).Nodup)
    (hk : (List.insertionSort (fun a b => a.priority ≤ b.priority) elements)[k]?
      = some e) :
    (dictGet? (arrange_elements spacing start_y elements video_width video_height)
        e.element_id
      = some ⟨(e.calc_rect video_width video_height).x,
          (match start_y with
           | some yv => yv
           | none =>
             Int.fdiv (video_height -
               ((((List.insertionSort (fun a b => a.priority ≤ b.priority) elements).map
                   (fun e2 => (e2.calc_rect video_width video_height).height)).sum
                 + spacing * ((elements.length : ℤ) - 1)))) 2)
          + ((((List.insertionSort (fun a b => a.priority ≤ b.priority) elements).take k).map
              (fun e2 => (e2.calc_rect video_width video_height).height + spacing)).sum),
          (e.calc_rect video_width video_height).width,
          (e.calc_rect video_width video_height).height⟩)
    ∧ arrange_elements 30 none
        [⟨"track1", 1, fun _ _ => ⟨0, 0, 1280, 100⟩⟩,
         ⟨"track2", 10, fun _ _ => ⟨0, 0, 1280, 60⟩⟩] 1280 720
      = [("track1", ⟨0, 265, 1280, 100⟩), ("track2", ⟨0, 395, 1280, 60⟩)] := by
  constructor
  · have hklen : k < (List.insertionSort
        (fun a b => a.priority ≤ b.priority) elements).length :=
      (List.getElem?_eq_some.mp hk).1
    have hne : elements ≠ [] := by
      intro hcontra
      rw [hcontra] at hklen
      simp [List.insertionSort] at hklen
    have hnds : (List.map LayoutElement.element_id
        (List.insertionSort (fun a b => a.priority ≤ b.priority) elements)).Nodup := by
      have hperm := List.perm_insertionSort (fun a b => a.priority ≤ b.priority) elements
      exact ((hperm.map LayoutElement.element_id).nodup_iff).mpr hnd
    rw [arrange_elements_eq_stackFrom spacing start_y elements _ _ hne hnd]
    exact dictGet?_stackFrom_sorted spacing _ video_width video_height _ k e hnds hk
  · decide

/-- Witness for c5_vertical_stack: Scenario B evaluated through the
theorem at the two concrete tracks. -/
theorem c5_vertical_stack_witness :
    arrange_elements 30 none
      [⟨"track1", 1, fun _ _ => ⟨0, 0, 1280, 100⟩⟩,
       ⟨"track2", 10, fun _ _ => ⟨0, 0, 1280, 60⟩⟩] 1280 720
      = [("track1", ⟨0, 265, 1280, 100⟩), ("track2", ⟨0, 395, 1280, 60⟩)] :=
  (c5_vertical_stack
    [⟨"track1", 1, fun _ _ => ⟨0, 0, 1280, 100⟩⟩,
     ⟨"track2", 10, fun _ _ => ⟨0, 0, 1280, 60⟩⟩] 30 none 1280 720 0
    ⟨"track1", 1, fun _ _ => ⟨0, 0, 1280, 100⟩⟩ (by decide) rfl).2

/-- C6 (amended): with positive spacing and positive required heights (the
LyricRect constructor enforces positive dimensions in Python), every pair
of rects assigned by VerticalStackStrategy.arrange_elements is
non-overlapping, for every set of registered elements with distinct ids,
in any registration order, and every canvas size.  Positive spacing is
necessary: with spacing 0 adjacent stacked rects touch and the
closed-boundary test reports them as overlapping (see
c6_counterexample). -/
theorem c6_layout_no_overlap (elements : List LayoutElement) (spacing : ℤ)
    (start_y : Option ℤ) (video_width video_height : ℤ)
    (hnd : (elements.map LayoutElement.element_id).Nodup)
    (hpos : ∀ e ∈ elements, 0 < (e.calc_rect video_width video_height).height)
    (hsp : 0 < spacing) :
    List.Pairwise (fun p q => p.2.overlaps_with q.2 = false)
      (arrange_elements spacing start_y elements video_width video_height) := by
  rcases eq_or_ne elements [] with rfl | hne
  · simp [arrange_elements]
  · rw [arrange_elements_eq_stackFrom spacing start_y elements _ _ hne hnd]
    apply stackFrom_pairwise_non_overlapping _ _ _ _ hsp
    intro p hp
    rw [List.mem_map] at hp
    obtain ⟨e2, he2, hpe⟩ := hp
    rw [← hpe]
    exact hpos e2 ((List.mem_insertionSort _).mp he2)

/-- C6 counterexample: with spacing 0 the two stacked rects touch along an
edge and the closed-boundary overlap test reports them as overlapping. -/
theorem c6_counterexample :
    arrange_elements 0 none
      [⟨"a", 1, fun _ _ => ⟨0, 0, 100, 10⟩⟩, ⟨"b", 2, fun _ _ => ⟨0, 0, 100, 10⟩⟩]
      100 100
      = [("a", ⟨0, 40, 100, 10⟩), ("b", ⟨0, 50, 100, 10⟩)]
    ∧ LyricRect.overlaps_with ⟨0, 40, 100, 10⟩ ⟨0, 50, 100, 10⟩ = true := by
  exact ⟨by decide, by decide⟩

/-- Witness for c6_layout_no_overlap: the Scenario B layout with spacing 30
is pairwise non-overlapping. -/
theorem c6_layout_no_overlap_witness :
    List.Pairwise (fun p q => LyricRect.overlaps_with p.2 q.2 = false)
      (arrange_elements 30 none
        [⟨"track1", 1, fun _ _ => ⟨0, 0, 1280, 100⟩⟩,
         ⟨"track2", 10, fun _ _ => ⟨0, 0, 1280, 60⟩⟩] 1280 720) :=
  c6_layout_no_overlap
    [⟨"track1", 1, fun _ _ => ⟨0, 0, 1280, 100⟩⟩,
     ⟨"track2", 10, fun _ _ => ⟨0, 0, 1280, 60⟩⟩] 30 none 1280 720
    (by decide) (by decide) (by decide)

/-- C10: LyricRect.overlaps_with is a closed-boundary test: two rects that
merely touch along a horizontal edge, with intersecting horizontal extents
and nonnegative total height, are reported as overlapping; consequently
detect_conflicts reports edge-adjacent required rects as a conflicting
pair, and a vertical stack computed with spacing 0 yields rects this test
deems overlapping. -/
theorem c10_closed_boundary_overlap (r1 r2 : LyricRect)
    (htouch : r1.y + r1.height = r2.y)
    (hx1 : ¬ r1.x + r1.width < r2.x) (hx2 : ¬ r2.x + r2.width < r1.x)
    (hh : 0 ≤ r1.height + r2.height) :
    r1.overlaps_with r2 = true
    ∧ detect_conflicts
        [⟨"a", 1, fun _ _ => ⟨0, 0, 100, 50⟩⟩, ⟨"b", 2, fun _ _ => ⟨0, 50, 100, 50⟩⟩]
        1280 720 = [("a", "b")]
    ∧ arrange_elements 0 none
        [⟨"c", 1, fun _ _ => ⟨0, 0, 100, 20⟩⟩, ⟨"d", 2, fun _ _ => ⟨0, 0, 100, 30⟩⟩]
        200 200
      = [("c", ⟨0, 75, 100, 20⟩), ("d", ⟨0, 95, 100, 30⟩)]
    ∧ LyricRect.overlaps_with ⟨0, 75, 100, 20⟩ ⟨0, 95, 100, 30⟩ = true := by
  refine ⟨?_, by decide, by decide, by decide⟩
  unfold LyricRect.overlaps_with
  simp only [Bool.not_eq_true', Bool.or_eq_false_iff, decide_eq_false_iff_not]
  refine ⟨⟨⟨hx1, hx2⟩, ?_⟩, ?_⟩
  · omega
  · omega

/-- Witness for c10_closed_boundary_overlap: two concrete rects touching
along the line y = 5 are deemed overlapping. -/
theorem c10_closed_boundary_overlap_witness :
    LyricRect.overlaps_with ⟨0, 0, 10, 5⟩ ⟨0, 5, 10, 5⟩ = true :=
  (c10_closed_boundary_overlap ⟨0, 0, 10, 5⟩ ⟨0, 5, 10, 5⟩ (by decide) (by decide)
    (by decide) (by decide)).1

/-- C8 counterexample: at animation progress 0.98 the code offset
int(30 * 0.02) = int(0.6) is 0, while round(30 * 0.02) = round(0.6) is 1:
the offset is a truncation, not a rounding. -/
theorem c8_counterexample :
    vertical_offset_of (49/50) = 0
    ∧ round ((ANIMATION_VERTICAL_OFFSET : ℚ) * (1 - 49/50)) = 1
    ∧ (0 : ℤ) ≠ 1 := by
  refine ⟨?_, ?_, by decide⟩
  · norm_num [vertical_offset_of, ratTrunc, ANIMATION_VERTICAL_OFFSET, Int.floor_eq_iff]
  · norm_num [ANIMATION_VERTICAL_OFFSET, round_eq, Int.floor_eq_iff]

/-- C8 (amended): for every visible entry with animation progress p in
[0, 1], the vertical rise offset applied to the draw position is exactly
floor(V * (1 - p)) pixels downward (Python int() truncation, equal to
floor on this nonnegative argument), with V = 30; the horizontal position
is unaffected. -/
theorem c8_rise_offset (text_height text_width video_width video_height : ℤ)
    (y_position : Option ℤ) (p : ℚ) (_h0 : 0 ≤ p) (h1 : p ≤ 1) :
    ((get_render_position_simple text_height text_width video_width video_height
        y_position p).2
      = (get_render_position_simple text_height text_width video_width video_height
          y_position 1).2
        + Int.floor ((ANIMATION_VERTICAL_OFFSET : ℚ) * (1 - p)))
    ∧ (get_render_position_simple text_height text_width video_width video_height
        y_position p).1
      = (get_render_position_simple text_height text_width video_width video_height
          y_position 1).1 := by
  constructor
  · unfold get_render_position_simple vertical_offset_of
    dsimp only
    rw [if_neg (lt_irrefl (1 : ℚ))]
    rcases lt_or_ge p 1 with hlt | hge
    · rw [if_pos hlt]
      unfold ratTrunc
      have hnn : (0:ℚ) ≤ (ANIMATION_VERTICAL_OFFSET : ℚ) * (1 - p) := by
        unfold ANIMATION_VERTICAL_OFFSET
        push_cast
        nlinarith
      rw [if_pos hnn]
      ring
    · have hp1 : p = 1 := le_antisymm h1 hge
      rw [hp1]
      rw [if_neg (lt_irrefl (1 : ℚ))]
      norm_num
  · rfl

/-- Witness for c8_rise_offset: at progress 1/2 the draw position is 15
pixels below the fully visible position. -/
theorem c8_rise_offset_witness :
    (get_render_position_simple 40 200 1280 720 none (1/2)).2
      = (get_render_position_simple 40 200 1280 720 none 1).2
        + Int.floor ((ANIMATION_VERTICAL_OFFSET : ℚ) * (1 - 1/2)) :=
  (c8_rise_offset 40 200 1280 720 none (1/2) (by norm_num) (by norm_num)).1

/-- C9: the alpha-blend clamps every draw into the buffer: the clamped
region is within the background bounds and its extent never exceeds the
bitmap, pixels outside the background bounds are never written, and the
blend is the identity when the clamped region is empty. -/
theorem c9_blend_clamped_safe (background : ℕ → ℕ → ℤ) (bg_height bg_width : ℕ)
    (fg_color fg_alpha : ℕ → ℕ → ℤ) (fg_height fg_width : ℕ)
    (x y : ℤ) (alpha_factor : ℚ) :
    (0 ≤ (clamped_blend_region bg_height bg_width fg_height fg_width x y).x0
      ∧ 0 ≤ (clamped_blend_region bg_height bg_width fg_height fg_width x y).y0
      ∧ (clamped_blend_region bg_height bg_width fg_height fg_width x y).x1 ≤ bg_width
      ∧ (clamped_blend_region bg_height bg_width fg_height fg_width x y).y1 ≤ bg_height
      ∧ (clamped_blend_region bg_height bg_width fg_height fg_width x y).x1
          - (clamped_blend_region bg_height bg_width fg_height fg_width x y).x0
          ≤ fg_width
      ∧ (clamped_blend_region bg_height bg_width fg_height fg_width x y).y1
          - (clamped_blend_region bg_height bg_width fg_height fg_width x y).y0
          ≤ fg_height)
    ∧ (∀ i j : ℕ, bg_height ≤ i ∨ bg_width ≤ j →
        opencv_alpha_blend background bg_height bg_width fg_color fg_alpha
          fg_height fg_width x y alpha_factor i j = background i j)
    ∧ ((clamped_blend_region bg_height bg_width fg_height fg_width x y).y1
          - (clamped_blend_region bg_height bg_width fg_height fg_width x y).y0 ≤ 0
        ∨ (clamped_blend_region bg_height bg_width fg_height fg_width x y).x1
          - (clamped_blend_region bg_height bg_width fg_height fg_width x y).x0 ≤ 0 →
        opencv_alpha_blend background bg_height bg_width fg_color fg_alpha
          fg_height fg_width x y alpha_factor = background) := by
  refine ⟨?_, ?_, ?_⟩
  · unfold clamped_blend_region
    dsimp only
    refine ⟨le_max_left 0 _, le_max_left 0 _, min_le_right _ _, min_le_right _ _, ?_, ?_⟩
    · have h := min_le_left (max 0 (min x ((bg_width : ℤ) - (fg_width : ℤ)))
        + (fg_width : ℤ)) (bg_width : ℤ)
      omega
    · have h := min_le_left (max 0 (min y ((bg_height : ℤ) - (fg_height : ℤ)))
        + (fg_height : ℤ)) (bg_height : ℤ)
      omega
  · intro i j hij
    unfold opencv_alpha_blend
    dsimp only
    split_ifs with hempty
    · rfl
    · have hy1 : (clamped_blend_region bg_height bg_width fg_height fg_width x y).y1
          ≤ bg_height := by
        unfold clamped_blend_region
        dsimp only
        exact min_le_right _ _
      have hx1 : (clamped_blend_region bg_height bg_width fg_height fg_width x y).x1
          ≤ bg_width := by
        unfold clamped_blend_region
        dsimp only
        exact min_le_right _ _
      have hnot : ¬((clamped_blend_region bg_height bg_width fg_height fg_width x y).y0
            ≤ (i : ℤ)
          ∧ (i : ℤ) < (clamped_blend_region bg_height bg_width fg_height fg_width x y).y1
          ∧ (clamped_blend_region bg_height bg_width fg_height fg_width x y).x0 ≤ (j : ℤ)
          ∧ (j : ℤ) < (clamped_blend_region bg_height bg_width fg_height
              fg_width x y).x1) := by
        rintro ⟨-, hiy, -, hjx⟩
        rcases hij with hi | hj
        · have hcast : (bg_height : ℤ) ≤ (i : ℤ) := by exact_mod_cast hi
          omega
        · have hcast : (bg_width : ℤ) ≤ (j : ℤ) := by exact_mod_cast hj
          omega
      show (if _ then _ else background i j) = background i j
      rw [if_neg hnot]
  · intro hempty
    unfold opencv_alpha_blend
    dsimp only
    rw [if_pos hempty]

/-- Witness for c9_blend_clamped_safe: a pixel outside a 2 by 2 buffer is
left unchanged by a blend of a 1 by 1 bitmap. -/
theorem c9_blend_clamped_safe_witness :
    opencv_alpha_blend (fun _ _ => 7) 2 2 (fun _ _ => 255) (fun _ _ => 255)
      1 1 0 0 1 5 0 = 7 :=
  (c9_blend_clamped_safe (fun _ _ => 7) 2 2 (fun _ _ => 255) (fun _ _ => 255)
    1 1 0 0 1).2.1 5 0 (Or.inl (by decide))
